import Mathlib

/-!
Verification of the `doge` shader-uniform proxy layer (`doge::uniform`)
against its specification.  The repository's own sources contain the test
suite (`src/test/doge/gl/uniform.cpp`) and an example caller
(`src/examples/coordinates/example/example.cpp`); the header
`doge/gl/uniform.hpp` that implements the proxy is not present, so the
core data model below is modelled from the specification's words and
checked against the behaviour the test suite demands.
-/

namespace doge

/-- Modelled from the spec (§3, `doge/gl/uniform.hpp` missing): a device
`Location` is an opaque per-program, per-name identifier.  We model it as a
natural number. -/
abbrev Location := Nat

/-- Modelled from the spec (§4.1): the element kind of a scalar or vector
uniform type: `GLfloat`, `GLint` or `GLuint`. -/
inductive ScalarKind where
  | float
  | int
  | uint
deriving DecidableEq

/-- Modelled from the spec (§4.1): the number of components of a vector, or
of a matrix dimension: 2, 3 or 4. -/
inductive VecDim where
  | two
  | three
  | four
deriving DecidableEq

/-- Modelled from the spec (§4.1, type classification layer): the closed
family of uniform-capable type categories: scalars, 2/3/4-component
vectors of each scalar kind, and `N×M` matrices (GL matrices are
float-valued, so they carry no scalar kind). -/
inductive TypeTag where
  | scalar (k : ScalarKind)
  | vec (d : VecDim) (k : ScalarKind)
  | matrix (r c : VecDim)
deriving DecidableEq

/-- Modelled from the spec (§4.1): whether the category has an integral
element type (`GLint` or `GLuint` scalars and vectors). -/
def TypeTag.isIntegral : TypeTag → Bool
  | .scalar .int => true
  | .scalar .uint => true
  | .vec _ .int => true
  | .vec _ .uint => true
  | _ => false

/-- Modelled from the spec (§4.1): whether the category is a matrix
category. -/
def TypeTag.isMatrix : TypeTag → Bool
  | .matrix _ _ => true
  | _ => false

/-- Modelled from the spec (§4.1): ordering is supported by scalars and
vectors of ordered element type, and not by matrices. -/
def TypeTag.supportsOrdering : TypeTag → Bool
  | .scalar _ => true
  | .vec _ _ => true
  | .matrix _ _ => false

/-- Modelled from the spec (§4.1): modulus is supported by integral scalars
and vectors, and not by floating-point or matrix types. -/
def TypeTag.supportsModulus : TypeTag → Bool
  | .scalar .int => true
  | .scalar .uint => true
  | .vec _ .int => true
  | .vec _ .uint => true
  | .scalar .float => false
  | .vec _ .float => false
  | .matrix _ _ => false

/-- Modelled from the spec (§4.1): division is supported by every category
except matrices. -/
def TypeTag.supportsDivision : TypeTag → Bool
  | .matrix _ _ => false
  | _ => true

/-- Modelled from the spec (§7, error taxonomy): the failure kinds the
uniform layer can raise.  `uniform_not_found` models
`doge::uniform_not_found`; `type_mismatch` models the distinct
`std::runtime_error` the test suite expects for a type disagreement;
`unsupported_operation` models an operation applied outside its type's
supported classification. -/
inductive UniformError where
  | uniform_not_found
  | type_mismatch
  | unsupported_operation
deriving DecidableEq

/-- Modelled from the spec (§3, §6): the external `ShaderProgram` handle
(`doge::shader_binary`), reduced to the two queries the core consumes:
`locate` resolves a name to a device location (`none` when the uniform is
absent or optimized out), and `declaredType` reports the device-declared
type tag of a location. -/
structure GLProgram where
  locate : String → Option Location
  declaredType : Location → TypeTag

/-- Modelled from the spec (§4.3): the device-side uniform store for value
type `T`: each location holds a current value.  `push` and `pull` below are
the only two operations that cross the host/device boundary. -/
structure Device (T : Type) where
  cell : Location → T

/-- Modelled from the spec (§4.3): `push` writes a value to the device cell
at a location. -/
def Device.push (dev : Device T) (loc : Location) (v : T) : Device T :=
  ⟨fun l => if l = loc then v else dev.cell l⟩

/-- Modelled from the spec (§4.3): `pull` reads the current device value at
a location. -/
def Device.pull (dev : Device T) (loc : Location) : T :=
  dev.cell loc

/-- Modelled from the spec (§3, §4.4): the mutable uniform value proxy
`doge::uniform<T>`: a resolved device location together with a host-side
cached value of type `T`.  (The referenced program is carried by the
operations that need it; the proxy itself never re-resolves its name.) -/
structure uniform (T : Type) where
  location : Location
  cache : T
deriving DecidableEq

/-- Modelled from the spec (§3, §4.4): the read-only proxy
`doge::uniform<const T>`: it stores only the resolved location and keeps no
persistent cache; every read re-pulls from the device. -/
structure constUniform (T : Type) where
  location : Location
deriving DecidableEq

/-- Modelled from the spec (§4.2, program binding accessor): resolve a name
to a location and validate the requested type tag against the
device-declared one.  Fails with `uniform_not_found` when the name is
absent, and with the distinct `type_mismatch` when the name exists but its
declared type disagrees. -/
def checkBinding (prog : GLProgram) (tag : TypeTag) (name : String) :
    Except UniformError Location :=
  match prog.locate name with
  | none => .error .uniform_not_found
  | some loc =>
    if prog.declaredType loc = tag then .ok loc else .error .type_mismatch

/-- Modelled from the spec (§4.4, `Construct(program, name, initial)`):
push-initialized construction of a mutable proxy: locate, validate, push
the initial value to the device, cache it. -/
def uniform.mkPush (prog : GLProgram) (tag : TypeTag) (name : String)
    (initial : T) (dev : Device T) :
    Except UniformError (uniform T × Device T) :=
  match checkBinding prog tag name with
  | .error e => .error e
  | .ok loc => .ok (⟨loc, initial⟩, dev.push loc initial)

/-- Modelled from the spec (§4.4, `Construct(program, name)` mutable):
pull-initialized construction of a mutable proxy: locate, validate, pull
the current device value into the cache. -/
def uniform.mkPull (prog : GLProgram) (tag : TypeTag) (name : String)
    (dev : Device T) : Except UniformError (uniform T) :=
  match checkBinding prog tag name with
  | .error e => .error e
  | .ok loc => .ok ⟨loc, dev.pull loc⟩

/-- Modelled from the spec (§4.4, `Construct(program, name)` read-only):
construction of a read-only proxy: locate, validate; no persistent cache. -/
def constUniform.make (T : Type) (prog : GLProgram) (tag : TypeTag)
    (name : String) : Except UniformError (constUniform T) :=
  match checkBinding prog tag name with
  | .error e => .error e
  | .ok loc => .ok ⟨loc⟩

/-- Modelled from the spec (§4.4, `Read`, mutable proxy): the implicit
conversion to `T` returns the cache without a device round-trip. -/
def uniform.read (u : uniform T) : T :=
  u.cache

/-- Modelled from the spec (§4.4, `Read`, read-only proxy): every
observation re-pulls from the device. -/
def constUniform.read (c : constUniform T) (dev : Device T) : T :=
  dev.pull c.location

/-- Modelled from the spec (§4.4): an operand of a comparison, arithmetic
or compound-assignment operation: a plain value of `T`, a mutable proxy, or
a read-only proxy. -/
inductive operand (T : Type) where
  | value (v : T)
  | mut (u : uniform T)
  | ro (c : constUniform T)

/-- Modelled from the spec (§4.4): the current observed value of an
operand: the value itself, a mutable proxy's cache, or a read-only proxy's
fresh pull. -/
def operand.observe : operand T → Device T → T
  | .value v, _ => v
  | .mut u, _ => u.read
  | .ro c, dev => c.read dev

/-- Modelled from the spec (§4.4, `Assign(value)`): push the value, then
cache it. -/
def uniform.assign (u : uniform T) (v : T) (dev : Device T) :
    uniform T × Device T :=
  (⟨u.location, v⟩, dev.push u.location v)

/-- Modelled from the spec (§4.4, `CompoundOp(rhs)`): compute
`cache op rhs` using the type's algebra — the right-hand side's current
read when it is a proxy — push the result, update the cache. -/
def uniform.compound (f : T → T → T) (u : uniform T) (b : operand T)
    (dev : Device T) : uniform T × Device T :=
  let v := f u.cache (b.observe dev)
  (⟨u.location, v⟩, dev.push u.location v)

/-- Modelled from the spec (§4.4, increment, prefix form): compute the new
value (`cache + 1`), push it, cache it, and return the new value. -/
def uniform.preIncr [Add T] [One T] (u : uniform T) (dev : Device T) :
    T × uniform T × Device T :=
  let v := u.cache + 1
  (v, ⟨u.location, v⟩, dev.push u.location v)

/-- Modelled from the spec (§4.4, increment, suffix form): capture the old
cached value, perform the behaviour of the other form, and return the
captured old value. -/
def uniform.postIncr [Add T] [One T] (u : uniform T) (dev : Device T) :
    T × uniform T × Device T :=
  let old := u.cache
  let r := u.preIncr dev
  (old, r.2.1, r.2.2)

/-- Modelled from the spec (§4.4, decrement, prefix form): compute
`cache - 1`, push it, cache it, and return the new value. -/
def uniform.preDecr [Sub T] [One T] (u : uniform T) (dev : Device T) :
    T × uniform T × Device T :=
  let v := u.cache - 1
  (v, ⟨u.location, v⟩, dev.push u.location v)

/-- Modelled from the spec (§4.4, decrement, suffix form): capture the old
cached value, perform the behaviour of the other form, and return the
captured old value. -/
def uniform.postDecr [Sub T] [One T] (u : uniform T) (dev : Device T) :
    T × uniform T × Device T :=
  let old := u.cache
  let r := u.preDecr dev
  (old, r.2.1, r.2.2)

/-- Modelled from the spec (§4.4): the operations available on a
successfully constructed mutable proxy: assignment, compound assignment
with an arbitrary binary operation of the type's algebra, and the four
increment/decrement forms. -/
inductive op (T : Type) where
  | assignOp (v : T)
  | compoundOp (f : T → T → T) (b : operand T)
  | incrPre
  | incrPost
  | decrPre
  | decrPost

/-- Modelled from the spec (§4.4): the effect of one proxy operation on the
proxy and the device. -/
def uniform.step [Add T] [Sub T] [One T] :
    op T → uniform T → Device T → uniform T × Device T
  | .assignOp v, u, dev => u.assign v dev
  | .compoundOp f b, u, dev => uniform.compound f u b dev
  | .incrPre, u, dev => (u.preIncr dev).2
  | .incrPost, u, dev => (u.postIncr dev).2
  | .decrPre, u, dev => (u.preDecr dev).2
  | .decrPost, u, dev => (u.postDecr dev).2

/-- Modelled from the spec (§4.4, failure semantics): operations on a
successfully constructed proxy, placed in the same error monad as
construction so that it is meaningful to state that they never raise:
construction errors are detected once and never resurface later. -/
def uniform.stepE [Add T] [Sub T] [One T] (o : op T) (u : uniform T)
    (dev : Device T) : Except UniformError (uniform T × Device T) :=
  .ok (uniform.step o u dev)

/-- Modelled from the spec (§3, invariant of `UniformValue<T>`): the
proxy's cached value equals the current device value of its cell. -/
def uniform.synced (u : uniform T) (dev : Device T) : Prop :=
  u.cache = dev.pull u.location

/-- Modelled from the spec (§4.4, binary arithmetic): a free binary
operation over two operands, computed from their current observed values
using the type's algebra; it mutates neither operand nor the device, which
is made explicit by returning the (unchanged) device alongside the value. -/
def binaryOp (f : T → T → T) (a b : operand T) (dev : Device T) :
    T × Device T :=
  (f (a.observe dev) (b.observe dev), dev)

/-- Modelled from the spec (§4.4, equality): `==` between any combination
of operands is equality of their current observed values. -/
def operandEq [DecidableEq T] (a b : operand T) (dev : Device T) : Bool :=
  a.observe dev = b.observe dev

/-- Modelled from the spec (§4.4, equality): `!=` is the exact negation of
`==`. -/
def operandNe [DecidableEq T] (a b : operand T) (dev : Device T) : Bool :=
  !operandEq a b dev

/-- Modelled from the spec (§4.4, ordering): `<` on current observed
values. -/
def operandLt [LinearOrder T] (a b : operand T) (dev : Device T) : Bool :=
  a.observe dev < b.observe dev

/-- Modelled from the spec (§4.4, ordering): `<=` on current observed
values. -/
def operandLe [LinearOrder T] (a b : operand T) (dev : Device T) : Bool :=
  a.observe dev ≤ b.observe dev

/-- Modelled from the spec (§4.4, ordering): `>` on current observed
values. -/
def operandGt [LinearOrder T] (a b : operand T) (dev : Device T) : Bool :=
  b.observe dev < a.observe dev

/-- Modelled from the spec (§4.4, ordering): `>=` on current observed
values. -/
def operandGe [LinearOrder T] (a b : operand T) (dev : Device T) : Bool :=
  b.observe dev ≤ a.observe dev

/-- Modelled from the spec (§4.1, §4.4): the binary arithmetic operation
kinds whose availability depends on the type classification. -/
inductive arithOp where
  | add
  | sub
  | mul
  | div
  | mod
deriving DecidableEq

/-- Modelled from the spec (§4.1): which arithmetic operations a type
category supports: addition, subtraction and multiplication everywhere;
division everywhere except matrices; modulus only on integral categories. -/
def opSupported : arithOp → TypeTag → Bool
  | .add, _ => true
  | .sub, _ => true
  | .mul, _ => true
  | .div, t => t.supportsDivision
  | .mod, t => t.supportsModulus

/-- Modelled from the spec (§4.1, §7): the classification gate applied when
an operation is requested on a type category: a supported operation passes,
an unsupported one is rejected with `unsupported_operation` rather than
silently ignored. -/
def checkOp (o : arithOp) (t : TypeTag) : Except UniformError Unit :=
  if opSupported o t then .ok () else .error .unsupported_operation

instance {ε α : Type} [DecidableEq ε] [DecidableEq α] :
    DecidableEq (Except ε α)
  | .error e, .error f =>
    if h : e = f then .isTrue (by rw [h])
    else .isFalse (fun hh => h (by injection hh))
  | .error _, .ok _ => .isFalse (fun hh => Except.noConfusion hh)
  | .ok _, .error _ => .isFalse (fun hh => Except.noConfusion hh)
  | .ok x, .ok y =>
    if h : x = y then .isTrue (by rw [h])
    else .isFalse (fun hh => h (by injection hh))

/-- Concrete program used by the concrete scenario of the test suite
(`src/test/doge/gl/uniform.cpp`, section `[uniform.scalar.GLfloat]`): it
exposes the float uniform `f.a` at device location 0. -/
def scenarioProg : GLProgram where
  locate n := if n = "f.a" then some 0 else none
  declaredType _ := .scalar .float

/-- Initial device store for the concrete scenario: every cell holds 0.
`GLfloat` is modelled by the exact rationals, the type's algebra at the
spec's level of abstraction; all scenario values (0.05, 0.5, 5.0, 5.5) are
exact. -/
def scenarioDev : Device ℚ :=
  ⟨fun _ => 0⟩

/-- Modelled from the spec (§8, concrete scenario): bind the float uniform
`f.a` with initial 0.05; assign 0.5 and observe it through a read-only
proxy; then compound-add 5.0 and observe both the mutable proxy and a fresh
read-only proxy.  Returns the three observations. -/
def scenario : Except UniformError (ℚ × ℚ × ℚ) := do
  let (a0, d0) ← uniform.mkPush scenarioProg (.scalar .float) "f.a"
    (0.05 : ℚ) scenarioDev
  let (a1, d1) := a0.assign (0.5 : ℚ) d0
  let c1 ← constUniform.make ℚ scenarioProg (.scalar .float) "f.a"
  let (a2, d2) := uniform.compound (· + ·) a1 (.value (5.0 : ℚ)) d1
  let c2 ← constUniform.make ℚ scenarioProg (.scalar .float) "f.a"
  pure (c1.read d1, a2.read, c2.read d2)

/-- Concrete program used by the witnesses, mirroring the test suite's
integer section: integer uniforms `i.a` and `i.b`, plus a name `bad_type`
whose device-declared type is a matrix, as in the test's check that
constructing on `bad_type` raises the type-mismatch runtime error. -/
def demoProg : GLProgram where
  locate n :=
    if n = "i.a" then some 0
    else if n = "i.b" then some 1
    else if n = "bad_type" then some 2
    else none
  declaredType l := if l = 2 then .matrix .two .two else .scalar .int

theorem checkBinding_ok {prog : GLProgram} {tag : TypeTag} {name : String}
    {loc : Location} :
    checkBinding prog tag name = .ok loc ↔
      prog.locate name = some loc ∧ prog.declaredType loc = tag := by
  unfold checkBinding
  cases hl : prog.locate name with
  | none => simp
  | some l =>
    by_cases ht : prog.declaredType l = tag
    · simp only [if_pos ht, Except.ok.injEq, Option.some.injEq]
      constructor
      · intro h
        subst h
        exact ⟨rfl, ht⟩
      · intro h
        exact h.1
    · simp only [if_neg ht]
      constructor
      · intro h
        exact absurd h (by simp)
      · intro h
        obtain ⟨h1, h2⟩ := h
        obtain rfl : l = loc := by
          injection h1
        exact absurd h2 ht

theorem pull_push_self (dev : Device T) (loc : Location) (v : T) :
    (dev.push loc v).pull loc = v := by
  simp [Device.push, Device.pull]

theorem make_ok {T : Type} {prog : GLProgram} {tag : TypeTag}
    {name : String} {c : constUniform T}
    (h : constUniform.make T prog tag name = .ok c) :
    prog.locate name = some c.location ∧
      prog.declaredType c.location = tag := by
  unfold constUniform.make at h
  cases hcb : checkBinding prog tag name with
  | error e =>
    rw [hcb] at h
    exact absurd h (by simp)
  | ok loc =>
    rw [hcb] at h
    simp only [Except.ok.injEq] at h
    subst h
    exact checkBinding_ok.mp hcb

/-- C1: after every completed operation on a mutable proxy —
push-initialized construction, assignment, compound assignment,
increment/decrement — the proxy's cached value equals the current device
value of its cell, and a freshly constructed read-only proxy on the same
name compares equal to the mutable proxy; in the concrete scenario, binding
`f.a` with initial 0.05 and assigning 0.5 makes a read-only proxy report
0.5, and after compound-adding 5.0 both the proxy and a fresh read-only
proxy equal 5.5. -/
theorem uniform_cache_never_stale {T : Type} [Add T] [Sub T] [One T]
    [DecidableEq T] :
    (∀ (prog : GLProgram) (tag : TypeTag) (name : String) (v : T)
      (dev : Device T) (u : uniform T) (dev' : Device T),
      uniform.mkPush prog tag name v dev = .ok (u, dev') → u.synced dev') ∧
    (∀ (o : op T) (u : uniform T) (dev : Device T),
      (uniform.step o u dev).1.synced (uniform.step o u dev).2) ∧
    (∀ (prog : GLProgram) (tag : TypeTag) (name : String) (u : uniform T)
      (dev : Device T) (c : constUniform T),
      constUniform.make T prog tag name = .ok c →
      prog.locate name = some u.location →
      u.synced dev → operandEq (.mut u) (.ro c) dev = true) ∧
    scenario = .ok ((0.5 : ℚ), 5.5, 5.5) := by
  refine ⟨?_, ?_, ?_, ?_⟩
  · intro prog tag name v dev u dev' h
    unfold uniform.mkPush at h
    cases hcb : checkBinding prog tag name with
    | error e =>
      rw [hcb] at h
      exact absurd h (by simp)
    | ok loc =>
      rw [hcb] at h
      simp only [Except.ok.injEq, Prod.mk.injEq] at h
      obtain ⟨rfl, rfl⟩ := h
      simp [uniform.synced, Device.push, Device.pull]
  · intro o u dev
    cases o <;>
      simp [uniform.step, uniform.assign, uniform.compound, uniform.preIncr,
        uniform.postIncr, uniform.preDecr, uniform.postDecr, uniform.synced,
        Device.push, Device.pull]
  · intro prog tag name u dev c hc hname hsync
    obtain ⟨hloc, -⟩ := make_ok hc
    rw [hname] at hloc
    simp only [Option.some.injEq] at hloc
    simp only [operandEq, operand.observe, uniform.read, constUniform.read,
      decide_eq_true_eq]
    rw [← hloc, hsync]
  · simp only [scenario, scenarioProg, scenarioDev, uniform.mkPush,
      checkBinding, uniform.assign, uniform.compound, constUniform.make,
      constUniform.read, uniform.read, operand.observe, Device.push,
      Device.pull, bind, Except.bind, pure, Except.pure]
    norm_num

theorem uniform_cache_never_stale_witness :
    ((uniform.step (T := ℤ) (.assignOp 7) ⟨0, 3⟩ ⟨fun _ => 3⟩).1.synced
      (uniform.step (T := ℤ) (.assignOp 7) ⟨0, 3⟩ ⟨fun _ => 3⟩).2) ∧
    operandEq (T := ℤ) (.mut ⟨0, 4⟩) (.ro ⟨0⟩) ⟨fun _ => 4⟩ = true := by
  constructor
  · exact uniform_cache_never_stale.2.1 (.assignOp 7) ⟨0, 3⟩ ⟨fun _ => 3⟩
  · exact uniform_cache_never_stale.2.2.1 demoProg (.scalar .int) "i.a"
      ⟨0, 4⟩ ⟨fun _ => 4⟩ ⟨0⟩ (by decide) (by decide) rfl

/-- C2: push-initialized construction of a mutable proxy locates the name,
validates the requested type against the device-declared one, pushes the
initial value to the device, and caches it, so a read-only proxy
constructed afterwards on the same name observes exactly that value. -/
theorem construct_write_before_read {T : Type} (prog : GLProgram)
    (tag : TypeTag) (name : String) (v : T) (dev : Device T)
    (u : uniform T) (dev' : Device T) (c : constUniform T)
    (hm : uniform.mkPush prog tag name v dev = .ok (u, dev'))
    (hc : constUniform.make T prog tag name = .ok c) :
    u.read = v ∧ dev'.pull u.location = v ∧ c.read dev' = v ∧
    prog.locate name = some u.location ∧
    prog.declaredType u.location = tag := by
  unfold uniform.mkPush at hm
  cases hcb : checkBinding prog tag name with
  | error e =>
    rw [hcb] at hm
    exact absurd hm (by simp)
  | ok loc =>
    rw [hcb] at hm
    simp only [Except.ok.injEq, Prod.mk.injEq] at hm
    obtain ⟨rfl, rfl⟩ := hm
    obtain ⟨hl, ht⟩ := checkBinding_ok.mp hcb
    obtain ⟨hl', -⟩ := make_ok hc
    rw [hl] at hl'
    simp only [Option.some.injEq] at hl'
    refine ⟨rfl, ?_, ?_, hl, ht⟩
    · simp [Device.push, Device.pull]
    · simp [constUniform.read, ← hl', Device.push, Device.pull]

theorem construct_write_before_read_witness :
    uniform.read (⟨0, 5⟩ : uniform ℤ) = 5 ∧
    (Device.push (⟨fun _ => 0⟩ : Device ℤ) 0 5).pull 0 = 5 ∧
    constUniform.read (⟨0⟩ : constUniform ℤ)
      (Device.push (⟨fun _ => 0⟩ : Device ℤ) 0 5) = 5 ∧
    demoProg.locate "i.a" = some 0 ∧
    demoProg.declaredType 0 = .scalar .int :=
  construct_write_before_read demoProg (.scalar .int) "i.a" (5 : ℤ)
    ⟨fun _ => 0⟩ ⟨0, 5⟩ (Device.push ⟨fun _ => 0⟩ 0 5) ⟨0⟩ rfl rfl

/-- C3: after `a op= b`, for any binary operation of the type's algebra
(this covers `+=`, `-=`, `*=`, `/=` and the integral-only `%=`) and any
right-hand side operand — a plain value, a mutable proxy, or a read-only
proxy, in the latter two cases read at its current observed value — the
proxy reads `old_a op b`, and a read-only proxy freshly constructed on
`a`'s name also observes `old_a op b`: the result was pushed to the device,
not only cached. -/
theorem compound_assignment_correct {T : Type} (f : T → T → T)
    (u : uniform T) (b : operand T) (dev : Device T) (prog : GLProgram)
    (tag : TypeTag) (name : String) (c : constUniform T)
    (hname : prog.locate name = some u.location)
    (hc : constUniform.make T prog tag name = .ok c) :
    (uniform.compound f u b dev).1.read = f u.read (b.observe dev) ∧
    c.read (uniform.compound f u b dev).2 = f u.read (b.observe dev) := by
  obtain ⟨hl, -⟩ := make_ok hc
  rw [hname] at hl
  simp only [Option.some.injEq] at hl
  constructor
  · simp [uniform.compound, uniform.read]
  · simp [uniform.compound, constUniform.read, ← hl, uniform.read,
      Device.push, Device.pull]

theorem compound_assignment_correct_witness :
    (uniform.compound (T := ℤ) (fun x y => x + y) ⟨0, 2⟩ (.value 3)
      ⟨fun _ => 2⟩).1.read = 5 ∧
    constUniform.read (⟨0⟩ : constUniform ℤ)
      (uniform.compound (fun x y => x + y) ⟨0, 2⟩ (.value 3)
        ⟨fun _ => 2⟩).2 = 5 :=
  compound_assignment_correct (fun x y => x + y) ⟨0, 2⟩ (.value 3)
    ⟨fun _ => 2⟩ demoProg (.scalar .int) "i.a" ⟨0⟩ rfl rfl

/-- C4: with `x` the proxy's cached value, the suffix increment returns `x`
and leaves the proxy — and the device cell, already updated when the call
returns — at `x + 1`; the prefix increment returns `x + 1` and leaves the
proxy at `x + 1`; symmetrically for decrement with `x - 1`. -/
theorem incr_decr_semantics {T : Type} [Add T] [Sub T] [One T]
    (u : uniform T) (dev : Device T) :
    (u.postIncr dev).1 = u.read ∧
    (u.postIncr dev).2.1.read = u.read + 1 ∧
    (u.postIncr dev).2.2.pull u.location = u.read + 1 ∧
    (u.preIncr dev).1 = u.read + 1 ∧
    (u.preIncr dev).2.1.read = u.read + 1 ∧
    (u.preIncr dev).2.2.pull u.location = u.read + 1 ∧
    (u.postDecr dev).1 = u.read ∧
    (u.postDecr dev).2.1.read = u.read - 1 ∧
    (u.postDecr dev).2.2.pull u.location = u.read - 1 ∧
    (u.preDecr dev).1 = u.read - 1 ∧
    (u.preDecr dev).2.1.read = u.read - 1 := by
  simp [uniform.preIncr, uniform.postIncr, uniform.preDecr,
    uniform.postDecr, uniform.read, Device.push, Device.pull]

/-- C5: equality between any combination of mutable proxies, read-only
proxies and plain values — equality of the operands' current observed
values — is reflexive, symmetric and transitive, and `!=` is its exact
negation, in particular anti-reflexive. -/
theorem equality_equivalence {T : Type} [DecidableEq T] (dev : Device T)
    (a b c : operand T) :
    operandEq a a dev = true ∧
    operandEq a b dev = operandEq b a dev ∧
    (operandEq a b dev = true → operandEq b c dev = true →
      operandEq a c dev = true) ∧
    operandNe a b dev = !operandEq a b dev ∧
    operandNe a a dev = false := by
  refine ⟨by simp [operandEq], decide_eq_decide.mpr eq_comm, ?_, rfl,
    by simp [operandNe, operandEq]⟩
  intro h1 h2
  have e1 : a.observe dev = b.observe dev := of_decide_eq_true h1
  have e2 : b.observe dev = c.observe dev := of_decide_eq_true h2
  exact decide_eq_true (e1.trans e2)

theorem equality_equivalence_witness :
    operandEq (T := ℤ) (.value 1) (.ro ⟨0⟩) ⟨fun _ => 1⟩ = true :=
  (equality_equivalence ⟨fun _ => 1⟩ (.value 1) (.mut ⟨0, 1⟩)
    (.ro ⟨0⟩)).2.2.1 (by decide) (by decide)

/-- C6: the comparison operators over any combination of operands form a
strict total order on current observed values: `<` and `>` are
anti-reflexive and anti-symmetric, all four operators are transitive,
`<=` and `>=` hold both ways on operands with equal observed values, and
any two operands are related by `<`, equal observed values, or `>`. -/
theorem ordering_strict_total_order {T : Type} [LinearOrder T]
    (dev : Device T) (a b c : operand T) :
    operandLt a a dev = false ∧
    operandGt a a dev = false ∧
    (operandLt a b dev = true → operandLt b a dev = false) ∧
    (operandGt a b dev = true → operandGt b a dev = false) ∧
    (operandLt a b dev = true → operandLt b c dev = true →
      operandLt a c dev = true) ∧
    (operandLe a b dev = true → operandLe b c dev = true →
      operandLe a c dev = true) ∧
    (operandGt a b dev = true → operandGt b c dev = true →
      operandGt a c dev = true) ∧
    (operandGe a b dev = true → operandGe b c dev = true →
      operandGe a c dev = true) ∧
    (a.observe dev = b.observe dev →
      operandLe a b dev = true ∧ operandGe a b dev = true) ∧
    (operandLt a b dev = true ∨ a.observe dev = b.observe dev ∨
      operandLt b a dev = true) := by
  refine ⟨by simp [operandLt], by simp [operandGt], ?_, ?_, ?_, ?_, ?_, ?_,
    ?_, ?_⟩
  · intro h
    exact decide_eq_false (not_lt_of_lt (of_decide_eq_true h))
  · intro h
    exact decide_eq_false (not_lt_of_lt (of_decide_eq_true h))
  · intro h1 h2
    exact decide_eq_true (lt_trans (of_decide_eq_true h1)
      (of_decide_eq_true h2))
  · intro h1 h2
    exact decide_eq_true (le_trans (of_decide_eq_true h1)
      (of_decide_eq_true h2))
  · intro h1 h2
    exact decide_eq_true (lt_trans (of_decide_eq_true h2)
      (of_decide_eq_true h1))
  · intro h1 h2
    exact decide_eq_true (le_trans (of_decide_eq_true h2)
      (of_decide_eq_true h1))
  · intro h
    exact ⟨decide_eq_true h.le, decide_eq_true h.ge⟩
  · rcases lt_trichotomy (a.observe dev) (b.observe dev) with h | h | h
    · exact .inl (decide_eq_true h)
    · exact .inr (.inl h)
    · exact .inr (.inr (decide_eq_true h))

theorem ordering_strict_total_order_witness :
    operandLt (T := ℤ) (.value 1) (.mut ⟨0, 3⟩) ⟨fun _ => 2⟩ = true ∧
    (operandLe (T := ℤ) (.value 2) (.ro ⟨0⟩) ⟨fun _ => 2⟩ = true ∧
      operandGe (T := ℤ) (.value 2) (.ro ⟨0⟩) ⟨fun _ => 2⟩ = true) :=
  ⟨(ordering_strict_total_order (⟨fun _ => 2⟩ : Device ℤ) (.value 1)
      (.ro ⟨0⟩) (.mut ⟨0, 3⟩)).2.2.2.2.1 (by decide) (by decide),
    (ordering_strict_total_order (⟨fun _ => 2⟩ : Device ℤ) (.value 2)
      (.ro ⟨0⟩) (.value 0)).2.2.2.2.2.2.2.2.1 (by decide)⟩

/-- C7: every free binary operation of the type's algebra — `+`, `-`, `*`,
`/`, integral `%` — over any pair of operands computes exactly the
operation applied to the operands' current observed values and leaves the
device unchanged in either operand order, mutating neither operand; and for
a commutative operation, such as `+` and `*`, the result is the same in
both operand orders, as `==` symmetrically is. -/
theorem binary_arith_commutative {T : Type} [DecidableEq T]
    (f : T → T → T) (a b : operand T) (dev : Device T) :
    (binaryOp f a b dev).1 = f (a.observe dev) (b.observe dev) ∧
    (binaryOp f a b dev).2 = dev ∧
    (binaryOp f b a dev).2 = dev ∧
    operandEq a b dev = operandEq b a dev ∧
    ((∀ x y, f x y = f y x) →
      (binaryOp f a b dev).1 = (binaryOp f b a dev).1) :=
  ⟨rfl, rfl, rfl, decide_eq_decide.mpr eq_comm, fun hf => hf _ _⟩

theorem binary_arith_commutative_witness :
    (binaryOp (T := ℤ) (fun x y => x - y) (.value 2) (.mut ⟨0, 3⟩)
      ⟨fun _ => 0⟩).2 = ⟨fun _ => 0⟩ ∧
    (binaryOp (T := ℤ) (fun x y => x + y) (.value 2) (.mut ⟨0, 3⟩)
      ⟨fun _ => 0⟩).1 =
    (binaryOp (T := ℤ) (fun x y => x + y) (.mut ⟨0, 3⟩) (.value 2)
      ⟨fun _ => 0⟩).1 :=
  ⟨(binary_arith_commutative (fun x y => x - y) (.value 2) (.mut ⟨0, 3⟩)
      ⟨fun _ => 0⟩).2.1,
    (binary_arith_commutative (fun x y => x + y) (.value 2) (.mut ⟨0, 3⟩)
      ⟨fun _ => 0⟩).2.2.2.2 (fun x y => Int.add_comm x y)⟩

/-- C8: constructing a proxy — mutable or read-only — on a name absent from
the program fails with `uniform_not_found`; constructing on a name that
exists but whose device-declared type disagrees fails with the distinct
`type_mismatch`; and the operations available on a successfully constructed
proxy are total, so neither error can resurface from them. -/
theorem construction_error_semantics {T : Type} [Add T] [Sub T] [One T]
    (prog : GLProgram) (tag : TypeTag) (name : String) (v : T)
    (dev : Device T) :
    (prog.locate name = none →
      uniform.mkPush prog tag name v dev = .error .uniform_not_found ∧
      constUniform.make T prog tag name = .error .uniform_not_found) ∧
    (∀ loc, prog.locate name = some loc → prog.declaredType loc ≠ tag →
      uniform.mkPush prog tag name v dev = .error .type_mismatch ∧
      constUniform.make T prog tag name = .error .type_mismatch) ∧
    UniformError.uniform_not_found ≠ UniformError.type_mismatch ∧
    (∀ (o : op T) (u : uniform T) (d : Device T),
      uniform.stepE o u d = .ok (uniform.step o u d)) := by
  refine ⟨?_, ?_, by simp, fun o u d => rfl⟩
  · intro h
    constructor <;> simp [uniform.mkPush, constUniform.make, checkBinding, h]
  · intro loc hl ht
    constructor <;>
      simp [uniform.mkPush, constUniform.make, checkBinding, hl, ht]

theorem construction_error_semantics_witness :
    (uniform.mkPush demoProg (.scalar .int) "dne" (5 : ℤ) ⟨fun _ => 0⟩ =
        .error .uniform_not_found ∧
      constUniform.make ℤ demoProg (.scalar .int) "dne" =
        .error .uniform_not_found) ∧
    (uniform.mkPush demoProg (.scalar .int) "bad_type" (5 : ℤ)
        ⟨fun _ => 0⟩ = .error .type_mismatch ∧
      constUniform.make ℤ demoProg (.scalar .int) "bad_type" =
        .error .type_mismatch) :=
  ⟨(construction_error_semantics demoProg (.scalar .int) "dne" (5 : ℤ)
      ⟨fun _ => 0⟩).1 (by decide),
    (construction_error_semantics demoProg (.scalar .int) "bad_type" (5 : ℤ)
      ⟨fun _ => 0⟩).2.1 2 (by decide) (by decide)⟩

/-- C9: the operation set follows the type classification: modulus is
available exactly on the integral categories and is rejected — with
`unsupported_operation`, not silently ignored — on floating-point and
matrix categories; division is available exactly on the non-matrix
categories; matrices expose no ordering while every non-matrix category
does; and every operation that the classification supports passes the
classification gate without reaching the unsupported-operation branch. -/
theorem operation_classification :
    (∀ t : TypeTag, t.supportsModulus = t.isIntegral) ∧
    (∀ t : TypeTag, t.supportsDivision = !t.isMatrix) ∧
    (∀ r c : VecDim, (TypeTag.matrix r c).supportsOrdering = false) ∧
    (∀ t : TypeTag, t.isMatrix = false → t.supportsOrdering = true) ∧
    (∀ t : TypeTag, t.supportsModulus = false →
      checkOp .mod t = .error .unsupported_operation) ∧
    (∀ (o : arithOp) (t : TypeTag), opSupported o t = true →
      checkOp o t = .ok ()) := by
  refine ⟨?_, ?_, fun r c => rfl, ?_, ?_, ?_⟩
  · intro t
    cases t with
    | scalar k => cases k <;> rfl
    | vec d k => cases k <;> rfl
    | matrix r c => rfl
  · intro t
    cases t <;> rfl
  · intro t h
    cases t with
    | scalar k => rfl
    | vec d k => rfl
    | matrix r c => exact absurd h (by simp [TypeTag.isMatrix])
  · intro t h
    simp [checkOp, opSupported, h]
  · intro o t h
    simp [checkOp, h]

theorem operation_classification_witness :
    checkOp .mod (.scalar .int) = .ok () ∧
    checkOp .mod (.scalar .float) = .error .unsupported_operation ∧
    (TypeTag.scalar .float).supportsOrdering = true :=
  ⟨operation_classification.2.2.2.2.2 .mod (.scalar .int) rfl,
    operation_classification.2.2.2.2.1 (.scalar .float) rfl,
    operation_classification.2.2.2.1 (.scalar .float) rfl⟩

/-- Modelled from the spec (refinement, deduced construction): the test
suite requires `doge::uniform` constructed with the element type deduced
from the initial value to be the same type as the explicitly parameterised
`doge::uniform<T>` and to hold the same value.  This definition writes the
deduced construction out independently, following the spec's construction
words — locate, validate, push the initial value, cache it — to be compared
with `uniform.mkPush`. -/
def uniformDeduced (prog : GLProgram) (tag : TypeTag) (name : String)
    {T : Type} (v : T) (dev : Device T) :
    Except UniformError (uniform T × Device T) :=
  match prog.locate name with
  | none => .error .uniform_not_found
  | some loc =>
    if prog.declaredType loc = tag then .ok (⟨loc, v⟩, dev.push loc v)
    else .error .type_mismatch

/-- C10: the construction with the element type deduced from the initial
value yields, on every program, name, value and device store, exactly the
result of the explicitly parameterised construction — in the embedding both
land in `uniform T`, so in particular the two proxies have the same type
and equal observed values. -/
theorem deduced_construction_equals_explicit {T : Type} (prog : GLProgram)
    (tag : TypeTag) (name : String) (v : T) (dev : Device T) :
    uniformDeduced prog tag name v dev =
      uniform.mkPush prog tag name v dev := by
  unfold uniformDeduced uniform.mkPush checkBinding
  cases prog.locate name with
  | none => rfl
  | some loc => by_cases h : prog.declaredType loc = tag <;> simp [h]

end doge
